import Mathlib

/-!
# cloud-sql-resource: the `in` and `out` steps

A shallow embedding of `src/out/main.go` (and of the functions it shares, word for word,
with `src/in/main.go`): the readiness loop of `ExecuteCloudSQLProxy`, the connection string of
`CheckDatabaseConnection`, the cell renderer and the error paths of `QuerySQL`, and the
statement loop of `main`.

Go strings are represented by Lean `String`s (the step input is decoded from JSON, which
always yields valid UTF-8 text).  Everything outside the program (the child process and its
output, the timer, the SQL driver) is a field of a `World`; a run of the program is a pure
function of the `World` that returns the list of observable `Event`s and the way it ended.

The output of the child is a finite sequence of reads followed by the end of the stream, and
the timer is the number of iterations of the readiness loop that begin before it fires.
Every read and every call of the driver returns: a run in which one of them blocks for ever
is not represented.
-/

set_option autoImplicit false
set_option linter.dupNamespace false

namespace CloudSQL

/-! ## Library functions of Go used by the program -/

/-- Go `strings.Contains` on character lists: `substr` occurs somewhere in `s`. -/
def containsChars : List Char → List Char → Bool
  | [], substr => substr.isEmpty
  | c :: cs, substr => substr.isPrefixOf (c :: cs) || containsChars cs substr

/-- Go `strings.Contains(s, substr)`. -/
def Contains (s substr : String) : Bool :=
  containsChars s.data substr.data

/-- Go `unicode.IsSpace`: the Latin-1 spaces and the other code points of `White_Space`. -/
def IsSpace (r : Char) : Bool :=
  let n := r.toNat
  if n ≤ 0xFF then
    n = 0x09 || n = 0x0A || n = 0x0B || n = 0x0C || n = 0x0D || n = 0x20 || n = 0x85 || n = 0xA0
  else
    n = 0x1680 || (0x2000 ≤ n && n ≤ 0x200A) || n = 0x2028 || n = 0x2029 || n = 0x202F
      || n = 0x205F || n = 0x3000

/-- Go `strings.TrimSpace`: the string without its leading and trailing white space. -/
def TrimSpace (s : String) : String :=
  ⟨((s.data.dropWhile IsSpace).reverse.dropWhile IsSpace).reverse⟩

/-- Go `strings.Split` for a separator of one character, on character lists: the pieces
between the occurrences of `sep`; a list without separator gives one piece. -/
def splitChars (sep : Char) : List Char → List (List Char)
  | [] => [[]]
  | c :: cs =>
    if c = sep then [] :: splitChars sep cs
    else
      match splitChars sep cs with
      | [] => [[c]]
      | piece :: pieces => (c :: piece) :: pieces

/-- Go `strings.Split(s, ";")`, the only call of `strings.Split` in the program. -/
def Split (s : String) (sep : Char) : List String :=
  (splitChars sep s.data).map String.mk

/-! ### `fmt.Sprintf` with a format and no operand

`CheckDatabaseConnection` calls `fmt.Sprintf(input.Source.Password)` and the readiness loop
calls `log.Panicf(line)`: the text is the format and there is no operand.  The definitions
below follow `(*pp).doPrintf` of Go's `fmt` package for an empty operand list: there the
fast path of the flag loop is never taken, `argNum` stays `0`, no operand index is in range
and every verb other than `%` reports a missing operand. -/

/-- Go fmt `tooLarge`: the bound on widths, precisions and operand indices. -/
def tooLarge (x : Nat) : Bool :=
  decide (x > 1000000)

/-- The loop of Go fmt `parsenum`: reads the digits from index `newi` on (`rest` is the
format from that index), and jumps to `stop` when the number is too large. -/
def parsenumLoop (stop : Nat) : List Char → Nat → Nat → Bool → Nat × Bool × Nat
  | [], newi, num, isnum => (num, isnum, newi)
  | c :: rest, newi, num, isnum =>
    if decide (newi < stop) && c.isDigit then
      if tooLarge num then (0, false, stop)
      else parsenumLoop stop rest (newi + 1) (num * 10 + (c.toNat - 48)) true
    else (num, isnum, newi)

/-- Go fmt `parsenum(s, start, end)`: the number, whether there is one, and the new index. -/
def parsenum (s : List Char) (start stop : Nat) : Nat × Bool × Nat :=
  if start ≥ stop then (0, false, stop)
  else parsenumLoop stop (s.drop start) start 0 false

/-- The index of the first `]` of a list whose first element has index `i`. -/
def closingBracket : List Char → Nat → Option Nat
  | [], _ => none
  | c :: rest, i => if c = ']' then some i else closingBracket rest (i + 1)

/-- Go fmt `parseArgNumber(format)`, where `format` starts at a `[`: the operand index
(zero-based), the number of characters to skip, and whether the bracket was well formed. -/
def parseArgNumber (format : List Char) : Int × Nat × Bool :=
  if format.length < 3 then (0, 1, false)
  else
    match closingBracket (format.drop 1) 1 with
    | some i =>
      let r := parsenum format 1 i
      if !r.2.1 || r.2.2 != i then (0, i + 1, false)
      else ((r.1 : Int) - 1, i + 1, true)
    | none => (0, 1, false)

/-- Go fmt `(*pp).argNumber(argNum, format, i, numArgs)` with `numArgs = 0`: the new index,
`found`, and whether `goodArgNum` was set to `false` (with no operand, every index is out
of range). -/
def argNumber (format : List Char) (i : Nat) : Nat × Bool × Bool :=
  if format.length ≤ i || format.getD i ' ' != '[' then (i, false, false)
  else
    let r := parseArgNumber (format.drop i)
    if r.2.2 && decide (0 ≤ r.1) && decide (r.1 < 0) then (i + r.2.1, true, false)
    else (i + r.2.1, r.2.2, true)

/-- The flags `#`, `0`, `+`, `-` and the space, which the flag loop of `doPrintf` skips. -/
def isFlag (c : Char) : Bool :=
  c = '#' || c = '0' || c = '+' || c = '-' || c = ' '

/-- One verb of `doPrintf` with no operand: `format` is the format after a `%`; the result
is the text written and the number of characters of `format` that were processed. -/
def processVerb (format : List Char) : List Char × Nat :=
  let stop := format.length
  -- Do we have flags?
  let i := (format.takeWhile isFlag).length
  -- Do we have an explicit argument index?
  let a := argNumber format i
  let i := a.1
  let afterIndex := a.2.1
  let goodArgNum := !a.2.2
  -- Do we have width?
  let w : List Char × Nat × Bool × Bool :=
    if decide (i < stop) && format.getD i ' ' == '*' then
      ("%!(BADWIDTH)".data, i + 1, false, goodArgNum)
    else
      let n := parsenum format i stop
      ([], n.2.2, afterIndex, goodArgNum && !(afterIndex && n.2.1))
  let i := w.2.1
  let afterIndex := w.2.2.1
  let goodArgNum := w.2.2.2
  -- Do we have precision?
  let p : List Char × Nat × Bool × Bool :=
    if decide (i + 1 < stop) && format.getD i ' ' == '.' then
      let b := argNumber format (i + 1)
      let good := goodArgNum && !afterIndex && !b.2.2
      if decide (b.1 < stop) && format.getD b.1 ' ' == '*' then
        ("%!(BADPREC)".data, b.1 + 1, false, good)
      else
        ([], (parsenum format b.1 stop).2.2, b.2.1, good)
    else ([], i, afterIndex, goodArgNum)
  let i := p.2.1
  let afterIndex := p.2.2.1
  let goodArgNum := p.2.2.2
  let c := if !afterIndex then argNumber format i else (i, afterIndex, false)
  let i := c.1
  let goodArgNum := goodArgNum && !c.2.2
  if i ≥ stop then (w.1 ++ p.1 ++ "%!(NOVERB)".data, i)
  else
    let verb := format.getD i ' '
    if verb = '%' then (w.1 ++ p.1 ++ ['%'], i + 1)
    else if !goodArgNum then (w.1 ++ p.1 ++ "%!".data ++ [verb] ++ "(BADINDEX)".data, i + 1)
    else (w.1 ++ p.1 ++ "%!".data ++ [verb] ++ "(MISSING)".data, i + 1)

/-- The format loop of `doPrintf` with no operand: text up to a `%` is copied, a `%` starts
a verb.  The first argument is the number of characters still to skip, which the verb
before them has processed. -/
def doPrintf : Nat → List Char → List Char
  | _, [] => []
  | skip + 1, _ :: rest => doPrintf skip rest
  | 0, c :: rest =>
    if c = '%' then (processVerb rest).1 ++ doPrintf (processVerb rest).2 rest
    else c :: doPrintf 0 rest

/-- Go `fmt.Sprintf(format)` with no operand. -/
def Sprintf (format : String) : String :=
  ⟨doPrintf 0 format.data⟩

/-! ## Data model (`src/out/main.go`, lines 18-40) -/

/-- The `source` object of the step input. -/
structure Source where
  UserName : String
  Password : String
  HostName : String
  Database : String
  PrivateKey : String
  deriving DecidableEq, Repr

/-- The `params` object of the step input. -/
structure Parameters where
  Query : String
  deriving DecidableEq, Repr

/-- Go `JSONSource`: the decoded step input. -/
structure JSONSource where
  Source : Source
  Parameters : Parameters
  deriving DecidableEq, Repr

/-- Go `Version`. -/
structure Version where
  Version : String
  deriving DecidableEq, Repr

/-- Go `Metadata`. -/
structure Metadata where
  Name : String
  Value : String
  deriving DecidableEq, Repr

/-- Go `Output`: the result document printed on standard output. -/
structure Output where
  Version : Version
  Metadata : List Metadata
  deriving DecidableEq, Repr

/-- A value that `rows.Scan` stores in an `interface{}` cell.  The content of a byte slice
is represented like the content of a string: Go's conversion `string(b)` keeps it as it
is.  A value of any other dynamic type (`float64`, `time.Time`, ...) is given by the text
that the verb `%v` prints for it. -/
inductive Value where
  | null
  | bytes (content : String)
  | int64 (n : Int)
  | bool (b : Bool)
  | string (s : String)
  | other (text : String)
  deriving DecidableEq, Repr

/-- One result of `reader.ReadString`: a line, returned with a nil error or with `io.EOF`,
or an error other than `io.EOF`. -/
inductive ReadResult where
  | line (text : String)
  | failure (err : String)
  deriving DecidableEq, Repr

/-- What a run does that can be observed from outside, in the order in which it happens. -/
inductive Event where
  /-- The call `cmd.Start()` has started the child with this command line. -/
  | started (argv : List String)
  /-- The call `reader.ReadString` returned this line. -/
  | read (line : String)
  /-- The call `reader.ReadString` returned an error other than `io.EOF`. -/
  | readFailed (err : String)
  /-- A line written by the `log` package. -/
  | logged (text : String)
  /-- The line `SQL query took ...`, whose text depends on the clock. -/
  | loggedElapsed
  /-- The call `io.Copy(os.Stdout, reader)`: the rest of the output of the child. -/
  | copied (lines : List String)
  /-- The call `Process.Signal(os.Interrupt)` on the child. -/
  | signal
  /-- The call `sql.Open("mysql", connString)`. -/
  | opened (connString : String)
  /-- The call `db.Ping()`. -/
  | pinged
  /-- The call `db.Close()`. -/
  | closed
  /-- The call `db.Query(stmt)`. -/
  | query (stmt : String)
  /-- The call `fmt.Println` of the encoded result document. -/
  | printed (output : Output)
  deriving DecidableEq, Repr

/-- How `ExecuteCloudSQLProxy` ends: `return cmd.Process, nil`, `return nil, err`, or the
panic of `log.Panicf`. -/
inductive ProxyResult where
  | process
  | failure (err : String)
  | panic (msg : String)
  deriving DecidableEq, Repr

/-- How `main` ends: it returns (status 0), `log.Fatal` ends the process (status 1), or a
panic that nothing recovers ends it (status 2). -/
inductive Exit where
  | success
  | fatal (err : String)
  | panic (msg : String)
  deriving DecidableEq, Repr

/-- The exit status of the process. -/
def Exit.status : Exit → Nat
  | .success => 0
  | .fatal _ => 1
  | .panic _ => 2

/-- The cursor that `db.Query` returns: the result of `rows.Columns()` and, for every row
that `rows.Next()` announces, the result of `rows.Scan`. -/
structure Rows where
  columns : Except String (List String)
  scans : List (Except String (List Value))

/-- The database behind the connection: the result of `db.Query` for a statement, which
may depend on the statements queried before it. -/
structure DB where
  query : List String → String → Except String Rows

/-- Everything outside the program in one run. -/
structure World where
  /-- The result of decoding standard input. -/
  stdin : Except String JSONSource
  /-- The error of `cmd.Start()`, if any. -/
  start : Option String
  /-- The successive results of `reader.ReadString` on the child's output; once they are
  used up the stream is at its end and every read returns the empty string with `io.EOF`. -/
  output : List ReadResult
  /-- The number of iterations of the readiness loop whose `select` finds the timer not yet
  fired. -/
  deadline : Nat
  /-- The error of `sql.Open` for a connection string, if any. -/
  sqlOpen : String → Option String
  /-- The error of `db.Ping()` for a connection string, if any. -/
  ping : String → Option String
  /-- The database queried by `QuerySQL`. -/
  db : DB

/-! ## `ExecuteCloudSQLProxy` (`src/out/main.go` 42-91, `src/in/main.go` 40-89) -/

/-- The marker of readiness in the proxy's output. -/
def readyMarker : String := "is ready for new connections!"

/-- The marker of an error in the proxy's output. -/
def errorMarker : String := "error"

/-- The next `reader.ReadString` and the output left after it. -/
def ReadString : List ReadResult → ReadResult × List ReadResult
  | [] => (.line "", [])
  | r :: rest => (r, rest)

/-- The lines that `io.Copy` copies: all up to the end of the stream or a read error. -/
def drain : List ReadResult → List String
  | [] => []
  | .line text :: rest => text :: drain rest
  | .failure _ :: _ => []

/-- The loop `loop:` of `ExecuteCloudSQLProxy`.  The first argument is the number of
iterations left before the `select` finds that the timer has fired. -/
def readinessLoop : Nat → List ReadResult → List Event × ProxyResult
  | 0, output =>
    ([.logged "Command output:", .copied (drain output),
      .logged "Timed out waiting for the Cloud SQL Proxy to start", .signal], .process)
  | polls + 1, output =>
    match (ReadString output).1 with
    | .failure err => ([.readFailed err], .failure err)
    | .line line =>
      if Contains line readyMarker then ([.read line], .process)
      else if Contains line errorMarker then
        ([.read line, .logged (Sprintf line)], .panic (Sprintf line))
      else
        let r := readinessLoop polls (ReadString output).2
        (.read line :: r.1, r.2)

/-- Go `ExecuteCloudSQLProxy`: starts the proxy and waits for it. -/
def ExecuteCloudSQLProxy (w : World) (input : JSONSource) : List Event × ProxyResult :=
  match w.start with
  | some err => ([], .failure err)
  | none =>
    let r := readinessLoop w.deadline w.output
    (.started ["/opt/resource/cloud-sql-proxy", input.Source.HostName, "--unix-socket",
        "/cloudsql", "--json-credentials", input.Source.PrivateKey] :: r.1, r.2)

/-! ## `CheckDatabaseConnection` (`src/out/main.go` 92-110)

The line that builds `connString` is the same in `src/in/main.go` (line 93). -/

/-- The value of `connString`: `fmt.Sprintf("%s:%s@unix(/cloudsql/%s)/%s", ...)` puts its
four string operands between the pieces of the format; the second operand is
`fmt.Sprintf(input.Source.Password)`. -/
def connString (input : JSONSource) : String :=
  input.Source.UserName ++ ":" ++ Sprintf input.Source.Password ++ "@unix(/cloudsql/"
    ++ input.Source.HostName ++ ")/" ++ input.Source.Database

/-- Go `CheckDatabaseConnection` of `src/out`: the events and the error, if any. -/
def CheckDatabaseConnection (w : World) (input : JSONSource) : List Event × Option String :=
  match w.sqlOpen (connString input) with
  | some err => ([.opened (connString input)], some err)
  | none =>
    match w.ping (connString input) with
    | some err => ([.opened (connString input), .pinged, .closed], some err)
    | none => ([.opened (connString input), .pinged], none)

/-! ## `QuerySQL` (`src/out/main.go` 111-171) -/

/-- The `switch` of `QuerySQL` on the type of a cell (lines 158-165). -/
def renderCell : Value → String
  | .bytes content => content
  | .null => "<nil>"
  | .int64 n => toString n
  | .bool b => toString b
  | .string s => s
  | .other text => text

/-- The loop over `rows.Next()`: one logged line for every row, up to a failing `Scan`. -/
def logRows : List (Except String (List Value)) → List Event × Option String
  | [] => ([], none)
  | .error err :: _ => ([], some err)
  | .ok values :: rest =>
    let r := logRows rest
    (.logged (" | ".intercalate (values.map renderCell)) :: r.1, r.2)

/-- Go `QuerySQL`: the events and the error returned, if any.  `history` is the list of the
statements queried before this one. -/
def QuerySQL (db : DB) (history : List String) (queryCommands : String) :
    List Event × Option String :=
  match db.query history queryCommands with
  | .error err => ([.logged queryCommands, .query queryCommands], some err)
  | .ok rows =>
    match rows.columns with
    | .error err => ([.logged queryCommands, .query queryCommands], some err)
    | .ok columns =>
      let r := logRows rows.scans
      ([.logged queryCommands, .query queryCommands, .loggedElapsed,
        .logged (" | ".intercalate columns)] ++ r.1, r.2)

/-! ## `main` (`src/out/main.go` 173-229) -/

/-- The loop of `main` over the statements (lines 200-212): the events, and the error that
`log.Fatal` reports, if any. -/
def runStatements (db : DB) : List String → List String → List Event × Option String
  | _, [] => ([], none)
  | history, stmt :: rest =>
    if TrimSpace stmt = "" then runStatements db history rest
    else
      let q := QuerySQL db history stmt
      match q.2 with
      | some err => (q.1, some err)
      | none =>
        let r := runStatements db (history ++ [stmt]) rest
        (q.1 ++ r.1, r.2)

/-- The result document of `main`. -/
def output : Output :=
  { Version := { Version := "static" }, Metadata := [] }

/-- Go `main` of `src/out`: the events of the run and the way it ends.
(`json.MarshalIndent` has no error for a value of type `Output`.) -/
def main (w : World) : List Event × Exit :=
  match w.stdin with
  | .error err => ([], .fatal err)
  | .ok input =>
    let p := ExecuteCloudSQLProxy w input
    match p.2 with
    | .panic msg => (p.1, .panic msg)
    | .failure err => (p.1, .fatal err)
    | .process =>
      let c := CheckDatabaseConnection w input
      match c.2 with
      | some err => (p.1 ++ c.1, .fatal err)
      | none =>
        let s := runStatements w.db [] (Split input.Parameters.Query ';')
        match s.2 with
        | some err => (p.1 ++ c.1 ++ s.1, .fatal err)
        | none => (p.1 ++ c.1 ++ s.1 ++ [.printed output, .signal], .success)

/-! ## Observations on a run -/

/-- The statements handed to the executor, in order. -/
def executed : List Event → List String
  | [] => []
  | .query stmt :: rest => stmt :: executed rest
  | _ :: rest => executed rest

/-- The number of times the termination signal is sent to the child. -/
def signals (trace : List Event) : Nat :=
  trace.count .signal

/-- The lines read by the readiness loop, in order. -/
def linesRead : List Event → List String
  | [] => []
  | .read line :: rest => line :: linesRead rest
  | _ :: rest => linesRead rest

/-- The result documents printed on standard output, in order. -/
def documents : List Event → List Output
  | [] => []
  | .printed doc :: rest => doc :: documents rest
  | _ :: rest => documents rest

/-- The fragments that are not empty after trimming, as they stand. -/
def nonBlank (fragments : List String) : List String :=
  fragments.filter (fun f => decide (TrimSpace f ≠ ""))

/-- The fragments trimmed, without those that are empty after trimming. -/
def trimmedNonEmpty (fragments : List String) : List String :=
  (fragments.map TrimSpace).filter (fun f => decide (f ≠ ""))

/-- Whether the statements of a list, executed in order after `history`, all return
without error. -/
def allSucceed (db : DB) : List String → List String → Bool
  | _, [] => true
  | history, stmt :: rest =>
    (QuerySQL db history stmt).2.isNone && allSucceed db (history ++ [stmt]) rest

/-! ## Sample runs -/

/-- A step input with the given password and query text. -/
def sampleInput (password query : String) : JSONSource :=
  { Source := { UserName := "user", Password := password, HostName := "proj:region:inst",
                Database := "db", PrivateKey := "key" },
    Parameters := { Query := query } }

/-- A database on which every statement succeeds, except `BAD SYNTAX`, and returns the one
row `1`. -/
def sampleDB : DB :=
  { query := fun _ stmt =>
      if TrimSpace stmt = "BAD SYNTAX" then .error "Error 1064: syntax error"
      else .ok { columns := .ok ["1"], scans := [.ok [Value.int64 1]] } }

/-- A run with the given query text, proxy output, deadline and result of `db.Ping()`. -/
def sampleWorld (query : String) (out : List ReadResult) (deadline : Nat)
    (ping : Option String) : World :=
  { stdin := .ok (sampleInput "secret" query), start := none, output := out,
    deadline := deadline, sqlOpen := fun _ => none, ping := fun _ => ping, db := sampleDB }

/-- The line with which the proxy reports that it is ready. -/
def readyLine : String :=
  "The proxy has started successfully and is ready for new connections!\n"

/-! ## The library functions on sample texts -/

/-- The values of `fmt.Sprintf` with no operand on sample formats, as Go prints them. -/
theorem Sprintf_samples :
    Sprintf "pass word" = "pass word" ∧
    Sprintf "hi%d" = "hi%!d(MISSING)" ∧
    Sprintf "100%" = "100%!(NOVERB)" ∧
    Sprintf "a%%b" = "a%b" ∧
    Sprintf "a%5.2%b" = "a%b" ∧
    Sprintf "%[1]d." = "%!d(BADINDEX)." ∧
    Sprintf "%*dx" = "%!(BADWIDTH)%!d(MISSING)x" ∧
    Sprintf "%.*dx" = "%!(BADPREC)%!d(MISSING)x" ∧
    Sprintf "%-08.3fx%" = "%!f(MISSING)x%!(NOVERB)" ∧
    Sprintf "%12345678d" = "%!(NOVERB)" ∧
    Sprintf "p%." = "p%!.(MISSING)" ∧
    Sprintf "p%.2" = "p%!(NOVERB)" := by
  decide

/-- The values of `strings.Split`, `strings.TrimSpace` and `strings.Contains` on sample
texts. -/
theorem strings_samples :
    Split "A; B ;;  " ';' = ["A", " B ", "", "  "] ∧
    Split "" ';' = [""] ∧
    TrimSpace " B " = "B" ∧
    TrimSpace " \t\n" = "" ∧
    Contains readyLine readyMarker = true ∧
    Contains "an error occurred" errorMarker = true ∧
    Contains "Error: upper case" errorMarker = false := by
  decide

/-! ## Lemmas on the observations -/

theorem executed_append (a b : List Event) : executed (a ++ b) = executed a ++ executed b := by
  induction a with
  | nil => rfl
  | cons e a ih => cases e <;> simp [executed, ih]

theorem linesRead_append (a b : List Event) :
    linesRead (a ++ b) = linesRead a ++ linesRead b := by
  induction a with
  | nil => rfl
  | cons e a ih => cases e <;> simp [linesRead, ih]

theorem documents_append (a b : List Event) :
    documents (a ++ b) = documents a ++ documents b := by
  induction a with
  | nil => rfl
  | cons e a ih => cases e <;> simp [documents, ih]

theorem signals_append (a b : List Event) : signals (a ++ b) = signals a + signals b := by
  simp [signals]

theorem linesRead_map_read (pre : List String) : linesRead (pre.map Event.read) = pre := by
  induction pre with
  | nil => rfl
  | cons l pre ih => simp [linesRead, ih]

theorem signals_map_read (pre : List String) : signals (pre.map Event.read) = 0 := by
  induction pre with
  | nil => rfl
  | cons l pre ih => simpa [signals, List.count_cons] using ih

theorem executed_map_read (pre : List String) : executed (pre.map Event.read) = [] := by
  induction pre with
  | nil => rfl
  | cons l pre ih => simpa [executed] using ih

theorem documents_map_read (pre : List String) : documents (pre.map Event.read) = [] := by
  induction pre with
  | nil => rfl
  | cons l pre ih => simpa [documents] using ih

/-! ## The readiness loop -/

/-- While the lines carry no marker and the timer has not fired, the loop reads on. -/
theorem readinessLoop_quiet (pre : List String)
    (hpre : ∀ l ∈ pre, Contains l readyMarker = false ∧ Contains l errorMarker = false)
    (n : Nat) (rest : List ReadResult) :
    readinessLoop (pre.length + n) (pre.map ReadResult.line ++ rest)
      = (pre.map Event.read ++ (readinessLoop n rest).1, (readinessLoop n rest).2) := by
  induction pre with
  | nil => simp
  | cons l pre ih =>
    have hl := hpre l (List.mem_cons_self l pre)
    have ih := ih (fun x hx => hpre x (List.mem_cons_of_mem l hx))
    have hlen : (l :: pre).length + n = (pre.length + n) + 1 := by
      simp [List.length_cons]; omega
    rw [hlen]
    simp [readinessLoop, ReadString, hl.1, hl.2, ih]

/-- When the timer fires before any marker is read, the loop signals the child once and
leaves through `break loop`. -/
theorem readinessLoop_timeout (n : Nat) (out : List ReadResult)
    (hquiet : ∀ r ∈ out.take n, ∃ l, r = ReadResult.line l ∧
      Contains l readyMarker = false ∧ Contains l errorMarker = false) :
    (readinessLoop n out).2 = ProxyResult.process ∧ signals (readinessLoop n out).1 = 1 := by
  induction n generalizing out with
  | zero => simp [readinessLoop, signals, List.count_cons]
  | succ n ih =>
    cases out with
    | nil =>
      have h1 : Contains "" readyMarker = false := by decide
      have h2 : Contains "" errorMarker = false := by decide
      have := ih [] (by simp)
      simp [readinessLoop, ReadString, h1, h2, this, signals, List.count_cons]
      simpa [signals] using this.2
    | cons r rest =>
      obtain ⟨l, rfl, h1, h2⟩ := hquiet r (by simp [List.take_succ_cons])
      have := ih rest (fun x hx => hquiet x (by simp [List.take_succ_cons, hx]))
      simp [readinessLoop, ReadString, h1, h2, this, signals, List.count_cons]
      simpa [signals] using this.2

/-- The loop ends at the first line with the ready marker, when it is read in time. -/
theorem readinessLoop_ready (pre : List String) (line : String) (rest : List ReadResult)
    (deadline : Nat)
    (hpre : ∀ l ∈ pre, Contains l readyMarker = false ∧ Contains l errorMarker = false)
    (hready : Contains line readyMarker = true)
    (htimer : pre.length < deadline) :
    readinessLoop deadline (pre.map ReadResult.line ++ ReadResult.line line :: rest)
      = (pre.map Event.read ++ [Event.read line], ProxyResult.process) := by
  obtain ⟨n, rfl⟩ : ∃ n, deadline = pre.length + (n + 1) := ⟨deadline - pre.length - 1, by omega⟩
  rw [readinessLoop_quiet pre hpre]
  simp [readinessLoop, ReadString, hready]

/-- The loop panics at the first line with the error marker and without the ready marker,
when it is read in time. -/
theorem readinessLoop_error (pre : List String) (line : String) (rest : List ReadResult)
    (deadline : Nat)
    (hpre : ∀ l ∈ pre, Contains l readyMarker = false ∧ Contains l errorMarker = false)
    (hready : Contains line readyMarker = false)
    (herror : Contains line errorMarker = true)
    (htimer : pre.length < deadline) :
    readinessLoop deadline (pre.map ReadResult.line ++ ReadResult.line line :: rest)
      = (pre.map Event.read ++ [Event.read line, Event.logged (Sprintf line)],
          ProxyResult.panic (Sprintf line)) := by
  obtain ⟨n, rfl⟩ : ∃ n, deadline = pre.length + (n + 1) := ⟨deadline - pre.length - 1, by omega⟩
  rw [readinessLoop_quiet pre hpre]
  simp [readinessLoop, ReadString, hready, herror]

/-- The readiness loop executes no statement and prints no result document. -/
theorem readinessLoop_silent (n : Nat) (out : List ReadResult) :
    executed (readinessLoop n out).1 = [] ∧ documents (readinessLoop n out).1 = [] := by
  induction n generalizing out with
  | zero => simp [readinessLoop, executed, documents]
  | succ n ih =>
    simp only [readinessLoop]
    cases h : (ReadString out).1 with
    | failure err => simp [executed, documents]
    | line l =>
      by_cases h1 : Contains l readyMarker = true
      · simp [h1, executed, documents]
      · by_cases h2 : Contains l errorMarker = true
        · simp [h1, h2, executed, documents]
        · simp [h1, h2, executed, documents, ih]

/-- The function `ExecuteCloudSQLProxy` executes no statement and prints no document. -/
theorem ExecuteCloudSQLProxy_silent (w : World) (input : JSONSource) :
    executed (ExecuteCloudSQLProxy w input).1 = [] ∧
    documents (ExecuteCloudSQLProxy w input).1 = [] := by
  unfold ExecuteCloudSQLProxy
  cases w.start with
  | some err => simp [executed, documents]
  | none => simpa [executed, documents] using readinessLoop_silent w.deadline w.output

/-- The probe executes no statement, prints no document and sends no signal. -/
theorem CheckDatabaseConnection_silent (w : World) (input : JSONSource) :
    executed (CheckDatabaseConnection w input).1 = [] ∧
    documents (CheckDatabaseConnection w input).1 = [] ∧
    signals (CheckDatabaseConnection w input).1 = 0 := by
  unfold CheckDatabaseConnection
  cases w.sqlOpen (connString input) with
  | some err => simp [executed, documents, signals, List.count_cons]
  | none =>
    cases w.ping (connString input) with
    | some err => simp [executed, documents, signals, List.count_cons]
    | none => simp [executed, documents, signals, List.count_cons]

/-! ## The statement loop -/

theorem logRows_silent (scans : List (Except String (List Value))) :
    executed (logRows scans).1 = [] ∧ documents (logRows scans).1 = [] ∧
    signals (logRows scans).1 = 0 := by
  induction scans with
  | nil => simp [logRows, executed, documents, signals]
  | cons r scans ih =>
    cases r with
    | error err => simp [logRows, executed, documents, signals]
    | ok values =>
      have h3 := ih.2.2
      simp only [signals] at h3
      simp [logRows, executed, documents, signals, List.count_cons, ih.1, ih.2.1, h3]

/-- One call of `QuerySQL` hands exactly its statement to the database, whatever it
returns, prints no document and sends no signal. -/
theorem QuerySQL_events (db : DB) (history : List String) (stmt : String) :
    executed (QuerySQL db history stmt).1 = [stmt] ∧
    documents (QuerySQL db history stmt).1 = [] ∧
    signals (QuerySQL db history stmt).1 = 0 := by
  unfold QuerySQL
  cases db.query history stmt with
  | error err => simp [executed, documents, signals, List.count_cons]
  | ok rows =>
    obtain ⟨cols, scans⟩ := rows
    cases cols with
    | error err => simp [executed, documents, signals, List.count_cons]
    | ok columns =>
      have h := logRows_silent scans
      have h3 := h.2.2
      simp only [signals] at h3
      simp [executed, documents, signals, List.count_cons, h.1, h.2.1, h3]

/-- The statement loop skips the blank fragments. -/
theorem runStatements_nonBlank (db : DB) (history fragments : List String) :
    runStatements db history fragments = runStatements db history (nonBlank fragments) := by
  induction fragments generalizing history with
  | nil => rfl
  | cons stmt rest ih =>
    by_cases hb : TrimSpace stmt = ""
    · simp [runStatements, nonBlank, hb]
      simpa [nonBlank] using ih history
    · have ih := ih (history ++ [stmt])
      simp only [nonBlank] at ih
      simp [runStatements, nonBlank, hb, ih]

/-- The statement loop prints no document and sends no signal. -/
theorem runStatements_silent (db : DB) (history fragments : List String) :
    documents (runStatements db history fragments).1 = [] ∧
    signals (runStatements db history fragments).1 = 0 := by
  induction fragments generalizing history with
  | nil => simp [runStatements, documents, signals]
  | cons stmt rest ih =>
    by_cases hb : TrimSpace stmt = ""
    · simpa [runStatements, hb] using ih history
    · have hq := QuerySQL_events db history stmt
      simp only [runStatements, hb, if_false]
      cases h : (QuerySQL db history stmt).2 with
      | some err => simpa using hq.2
      | none =>
        have ih := ih (history ++ [stmt])
        simp [documents_append, signals_append, hq.2.1, hq.2.2, ih.1, ih.2]

/-- On a list without blank fragment, the loop executes everything when every execution
succeeds, and it returns without error exactly in that case. -/
theorem runStatements_all (db : DB) (history stmts : List String)
    (hnb : ∀ s ∈ stmts, TrimSpace s ≠ "") :
    ((runStatements db history stmts).2 = none ↔ allSucceed db history stmts = true) ∧
    ((runStatements db history stmts).2 = none →
      executed (runStatements db history stmts).1 = stmts) := by
  induction stmts generalizing history with
  | nil => simp [runStatements, allSucceed, executed]
  | cons stmt rest ih =>
    have hb : TrimSpace stmt ≠ "" := hnb stmt (List.mem_cons_self _ _)
    have ih := ih (history ++ [stmt]) (fun s hs => hnb s (List.mem_cons_of_mem _ hs))
    have hq := QuerySQL_events db history stmt
    simp only [runStatements, hb, if_false, allSucceed]
    cases h : (QuerySQL db history stmt).2 with
    | some err => simp
    | none =>
      simp only [Option.isNone_none, Bool.true_and]
      refine ⟨ih.1, fun hnone => ?_⟩
      simp [executed_append, hq.1, ih.2 hnone]

/-- On a list without blank fragment, the loop stops at the first execution that fails. -/
theorem runStatements_first_error (db : DB) (history done : List String) (stmt : String)
    (later : List String) (err : String)
    (hnb : ∀ s ∈ done ++ stmt :: later, TrimSpace s ≠ "")
    (hdone : allSucceed db history done = true)
    (herr : (QuerySQL db (history ++ done) stmt).2 = some err) :
    (runStatements db history (done ++ stmt :: later)).2 = some err ∧
    executed (runStatements db history (done ++ stmt :: later)).1 = done ++ [stmt] := by
  induction done generalizing history with
  | nil =>
    have hb : TrimSpace stmt ≠ "" := hnb stmt (by simp)
    have hq := QuerySQL_events db history stmt
    simp only [List.append_nil] at herr
    simp [runStatements, hb, herr, hq.1]
  | cons d done ih =>
    have hb : TrimSpace d ≠ "" := hnb d (by simp)
    have hq := QuerySQL_events db history d
    simp only [allSucceed, Bool.and_eq_true, Option.isNone_iff_eq_none] at hdone
    have ih := ih (history ++ [d]) (fun s hs => hnb s (by simp at hs ⊢; tauto)) hdone.2
      (by simpa using herr)
    simp [runStatements, hb, hdone.1, ih.1, executed_append, hq.1, ih.2]

/-- Whatever happens, the statements executed by the loop are the first of the fragments
that are not blank, in their order. -/
theorem runStatements_prefix (db : DB) (history fragments : List String) :
    ∃ rest, executed (runStatements db history fragments).1 ++ rest = nonBlank fragments := by
  induction fragments generalizing history with
  | nil => exact ⟨[], rfl⟩
  | cons stmt rest ih =>
    by_cases hb : TrimSpace stmt = ""
    · simpa [runStatements, nonBlank, hb] using ih history
    · have hq := QuerySQL_events db history stmt
      simp only [runStatements, hb, if_false]
      cases h : (QuerySQL db history stmt).2 with
      | some err => exact ⟨nonBlank rest, by simp [nonBlank, hb, hq.1]⟩
      | none =>
        obtain ⟨r, hr⟩ := ih (history ++ [stmt])
        exact ⟨r, by simp [nonBlank, hb, executed_append, hq.1] at hr ⊢; simpa [nonBlank] using hr⟩

theorem mem_nonBlank (fragments : List String) (s : String) (hs : s ∈ nonBlank fragments) :
    TrimSpace s ≠ "" := by
  simpa using (List.of_mem_filter hs)

/-! ## The runs of `main` -/

theorem proxyResult_cases (r : ProxyResult) :
    r = ProxyResult.process ∨ (∃ err, r = ProxyResult.failure err) ∨
      ∃ msg, r = ProxyResult.panic msg := by
  cases r <;> simp

/-- A run that ends with status 0 has gone through every stage. -/
theorem main_success (w : World) (input : JSONSource) (hin : w.stdin = .ok input)
    (hok : (main w).2 = Exit.success) :
    (ExecuteCloudSQLProxy w input).2 = ProxyResult.process ∧
    (CheckDatabaseConnection w input).2 = none ∧
    (runStatements w.db [] (Split input.Parameters.Query ';')).2 = none ∧
    (main w).1 = (ExecuteCloudSQLProxy w input).1 ++ (CheckDatabaseConnection w input).1
      ++ (runStatements w.db [] (Split input.Parameters.Query ';')).1
      ++ [Event.printed output, Event.signal] := by
  simp only [main, hin] at hok ⊢
  cases hp : (ExecuteCloudSQLProxy w input).2 with
  | failure err => simp [hp] at hok
  | panic msg => simp [hp] at hok
  | process =>
    simp only [hp] at hok ⊢
    cases hc : (CheckDatabaseConnection w input).2 with
    | some err => simp [hc] at hok
    | none =>
      simp only [hc] at hok ⊢
      cases hs : (runStatements w.db [] (Split input.Parameters.Query ';')).2 with
      | some err => simp [hs] at hok
      | none => simp

/-- A run whose proxy stage returns the process and whose probe succeeds reaches the
statement loop, and ends as the loop does. -/
theorem main_reached (w : World) (input : JSONSource) (hin : w.stdin = .ok input)
    (hproxy : (ExecuteCloudSQLProxy w input).2 = ProxyResult.process)
    (hprobe : (CheckDatabaseConnection w input).2 = none) :
    main w =
      match (runStatements w.db [] (Split input.Parameters.Query ';')).2 with
      | some err =>
        ((ExecuteCloudSQLProxy w input).1 ++ (CheckDatabaseConnection w input).1
          ++ (runStatements w.db [] (Split input.Parameters.Query ';')).1, Exit.fatal err)
      | none =>
        ((ExecuteCloudSQLProxy w input).1 ++ (CheckDatabaseConnection w input).1
          ++ (runStatements w.db [] (Split input.Parameters.Query ';')).1
          ++ [Event.printed output, Event.signal], Exit.success) := by
  simp only [main, hin, hproxy, hprobe]

/-- The statements executed in a run are those of its statement loop, if it has one. -/
theorem main_executed (w : World) (input : JSONSource) (hin : w.stdin = .ok input) :
    executed (main w).1 = [] ∨
    executed (main w).1 = executed (runStatements w.db [] (Split input.Parameters.Query ';')).1 := by
  have hp0 := ExecuteCloudSQLProxy_silent w input
  have hc0 := CheckDatabaseConnection_silent w input
  simp only [main, hin]
  cases hp : (ExecuteCloudSQLProxy w input).2 with
  | failure err => exact Or.inl hp0.1
  | panic msg => exact Or.inl hp0.1
  | process =>
    cases hc : (CheckDatabaseConnection w input).2 with
    | some err => left; simp [executed_append, hp0.1, hc0.1]
    | none =>
      right
      cases hs : (runStatements w.db [] (Split input.Parameters.Query ';')).2 with
      | some err => simp [executed_append, hp0.1, hc0.1]
      | none => simp [executed_append, hp0.1, hc0.1, executed]

/-- The result document is printed once in a run that ends with status 0, and not at all
in any other run. -/
theorem main_documents (w : World) :
    documents (main w).1 = if (main w).2 = Exit.success then [output] else [] := by
  unfold main
  cases hin : w.stdin with
  | error err => simp [documents]
  | ok input =>
    have hp0 := ExecuteCloudSQLProxy_silent w input
    have hc0 := CheckDatabaseConnection_silent w input
    have hs0 := runStatements_silent w.db [] (Split input.Parameters.Query ';')
    simp only []
    obtain hp | ⟨err, hp⟩ | ⟨msg, hp⟩ := proxyResult_cases (ExecuteCloudSQLProxy w input).2
    · obtain hc | ⟨err, hc⟩ := Option.eq_none_or_eq_some (CheckDatabaseConnection w input).2
      · obtain hs | ⟨err, hs⟩ := Option.eq_none_or_eq_some
          (runStatements w.db [] (Split input.Parameters.Query ';')).2
        · simp [hp, hc, hs, documents_append, hp0.2, hc0.2.1, hs0.1, documents]
        · simp [hp, hc, hs, documents_append, hp0.2, hc0.2.1, hs0.1]
      · simp [hp, hc, documents_append, hp0.2, hc0.2.1]
    · simp [hp, hp0.2]
    · simp [hp, hp0.2]

/-- A run whose readiness loop ends at the ready marker has sent no signal when
`ExecuteCloudSQLProxy` returns. -/
theorem ExecuteCloudSQLProxy_ready (w : World) (input : JSONSource) (pre : List String)
    (line : String) (rest : List ReadResult)
    (hstart : w.start = none)
    (hout : w.output = pre.map ReadResult.line ++ ReadResult.line line :: rest)
    (hpre : ∀ l ∈ pre, Contains l readyMarker = false ∧ Contains l errorMarker = false)
    (hready : Contains line readyMarker = true)
    (htimer : pre.length < w.deadline) :
    (ExecuteCloudSQLProxy w input).2 = ProxyResult.process ∧
    signals (ExecuteCloudSQLProxy w input).1 = 0 := by
  have hloop := readinessLoop_ready pre line rest w.deadline hpre hready htimer
  rw [← hout] at hloop
  simp only [ExecuteCloudSQLProxy, hstart, hloop]
  refine ⟨trivial, ?_⟩
  have h := signals_map_read pre
  simp only [signals] at h ⊢
  simp [List.count_cons, h]

/-- The signals of a run that has reached the statement loop: those of the proxy stage,
and one more when the run ends with status 0. -/
theorem main_signals (w : World) (input : JSONSource) (hin : w.stdin = .ok input)
    (hproxy : (ExecuteCloudSQLProxy w input).2 = ProxyResult.process) :
    signals (main w).1 = signals (ExecuteCloudSQLProxy w input).1
      + (if (main w).2 = Exit.success then 1 else 0) ∧
    ((main w).2 = Exit.success ∨ ∃ err, (main w).2 = Exit.fatal err) := by
  have hc0 := CheckDatabaseConnection_silent w input
  have hs0 := runStatements_silent w.db [] (Split input.Parameters.Query ';')
  simp only [main, hin, hproxy]
  obtain hc | ⟨err, hc⟩ := Option.eq_none_or_eq_some (CheckDatabaseConnection w input).2
  · obtain hs | ⟨err, hs⟩ := Option.eq_none_or_eq_some
      (runStatements w.db [] (Split input.Parameters.Query ';')).2
    · simp [hc, hs, signals_append, hc0.2.2, hs0.2]
      simp [signals]
    · simp [hc, hs, signals_append, hc0.2.2, hs0.2]
  · simp [hc, signals_append, hc0.2.2]

/-- A run that reaches the statement loop and in which every execution succeeds executes
all the fragments that are not blank and ends with status 0. -/
theorem main_of_allSucceed (w : World) (input : JSONSource) (hin : w.stdin = .ok input)
    (hproxy : (ExecuteCloudSQLProxy w input).2 = ProxyResult.process)
    (hprobe : (CheckDatabaseConnection w input).2 = none)
    (hall : allSucceed w.db [] (nonBlank (Split input.Parameters.Query ';')) = true) :
    executed (main w).1 = nonBlank (Split input.Parameters.Query ';') ∧
    (main w).2 = Exit.success := by
  have hrun := runStatements_all w.db [] (nonBlank (Split input.Parameters.Query ';'))
    (mem_nonBlank _)
  rw [← runStatements_nonBlank] at hrun
  have hnone := hrun.1.2 hall
  have hp0 := ExecuteCloudSQLProxy_silent w input
  have hc0 := CheckDatabaseConnection_silent w input
  rw [main_reached w input hin hproxy hprobe, hnone]
  simp [executed_append, hp0.1, hc0.1, hrun.2 hnone, executed]

/-- The rows that scan without error are logged one line each, the cells rendered by
`renderCell` and joined by ` | `. -/
theorem logRows_ok (rows : List (List Value)) :
    logRows (rows.map Except.ok)
      = (rows.map (fun r => Event.logged (" | ".intercalate (r.map renderCell))), none) := by
  induction rows with
  | nil => rfl
  | cons r rows ih => simp [logRows, ih]

/-! ## Claims on `ExecuteCloudSQLProxy` -/

/-- C5: if the first line with a marker contains the ready marker (whether or not it also
contains `error`) and is read before the timer fires, `ExecuteCloudSQLProxy` stops at that
line: all it does is start the child and read the lines up to that one, so that it reads no
further line, copies nothing of the output left, logs nothing and sends no signal; and it
returns the process with a nil error. -/
theorem ready_marker_returns_process (w : World) (input : JSONSource) (pre : List String)
    (line : String) (rest : List ReadResult)
    (hstart : w.start = none)
    (hout : w.output = pre.map ReadResult.line ++ ReadResult.line line :: rest)
    (hpre : ∀ l ∈ pre, Contains l readyMarker = false ∧ Contains l errorMarker = false)
    (hready : Contains line readyMarker = true)
    (htimer : pre.length < w.deadline) :
    ExecuteCloudSQLProxy w input
      = (Event.started ["/opt/resource/cloud-sql-proxy", input.Source.HostName,
            "--unix-socket", "/cloudsql", "--json-credentials", input.Source.PrivateKey]
          :: (pre.map Event.read ++ [Event.read line]), ProxyResult.process) ∧
    (ExecuteCloudSQLProxy w input).2 = ProxyResult.process ∧
    linesRead (ExecuteCloudSQLProxy w input).1 = pre ++ [line] ∧
    signals (ExecuteCloudSQLProxy w input).1 = 0 := by
  have hloop := readinessLoop_ready pre line rest w.deadline hpre hready htimer
  rw [← hout] at hloop
  have htrace : ExecuteCloudSQLProxy w input
      = (Event.started ["/opt/resource/cloud-sql-proxy", input.Source.HostName,
            "--unix-socket", "/cloudsql", "--json-credentials", input.Source.PrivateKey]
          :: (pre.map Event.read ++ [Event.read line]), ProxyResult.process) := by
    simp only [ExecuteCloudSQLProxy, hstart, hloop]
  refine ⟨htrace, ?_, ?_, ?_⟩
  · rw [htrace]
  · rw [htrace]
    simp [linesRead, linesRead_append, linesRead_map_read]
  · rw [htrace]
    have h := signals_map_read pre
    simp only [signals] at h ⊢
    simp [List.count_cons, h]

theorem ready_marker_returns_process_witness :
    (sampleWorld "" [.line "starting\n", .line ("error? no: " ++ readyLine), .line "more\n"]
        3 none).start = none ∧
    Contains ("error? no: " ++ readyLine) errorMarker = true ∧
    Contains ("error? no: " ++ readyLine) readyMarker = true ∧
    ExecuteCloudSQLProxy
      (sampleWorld "" [.line "starting\n", .line ("error? no: " ++ readyLine), .line "more\n"]
        3 none) (sampleInput "secret" "")
      = ([.started ["/opt/resource/cloud-sql-proxy", "proj:region:inst", "--unix-socket",
            "/cloudsql", "--json-credentials", "key"],
          .read "starting\n", .read ("error? no: " ++ readyLine)], ProxyResult.process) :=
  ⟨rfl, by decide, by decide,
    (ready_marker_returns_process
      (sampleWorld "" [.line "starting\n", .line ("error? no: " ++ readyLine), .line "more\n"]
        3 none) (sampleInput "secret" "") ["starting\n"] ("error? no: " ++ readyLine)
      [.line "more\n"] rfl rfl (by decide) (by decide) (by decide)).1⟩

/-- C3: when no line read before the timer fires contains a marker, `ExecuteCloudSQLProxy`
sends the termination signal exactly once, and then returns the process with a nil error,
as it does when the proxy is ready: it does not return a timeout error. -/
theorem timeout_returns_process (w : World) (input : JSONSource)
    (hstart : w.start = none)
    (hquiet : ∀ r ∈ w.output.take w.deadline, ∃ l, r = ReadResult.line l ∧
      Contains l readyMarker = false ∧ Contains l errorMarker = false) :
    signals (ExecuteCloudSQLProxy w input).1 = 1 ∧
    (ExecuteCloudSQLProxy w input).2 = ProxyResult.process ∧
    ∀ err, (ExecuteCloudSQLProxy w input).2 ≠ ProxyResult.failure err := by
  have h := readinessLoop_timeout w.deadline w.output hquiet
  simp only [ExecuteCloudSQLProxy, hstart]
  refine ⟨?_, h.1, ?_⟩
  · have h2 := h.2
    simp only [signals] at h2 ⊢
    simp [List.count_cons, h2]
  · intro err
    simp [h.1]

theorem timeout_returns_process_witness :
    (sampleWorld "" [.line "starting\n", .line "still starting\n"] 2 none).start = none ∧
    signals (ExecuteCloudSQLProxy
      (sampleWorld "" [.line "starting\n", .line "still starting\n"] 2 none)
      (sampleInput "secret" "")).1 = 1 ∧
    (ExecuteCloudSQLProxy
      (sampleWorld "" [.line "starting\n", .line "still starting\n"] 2 none)
      (sampleInput "secret" "")).2 = ProxyResult.process ∧
    ∀ err, (ExecuteCloudSQLProxy
      (sampleWorld "" [.line "starting\n", .line "still starting\n"] 2 none)
      (sampleInput "secret" "")).2 ≠ ProxyResult.failure err :=
  ⟨rfl, timeout_returns_process
    (sampleWorld "" [.line "starting\n", .line "still starting\n"] 2 none)
    (sampleInput "secret" "") rfl (by
      intro r hr
      simp only [sampleWorld, List.take_succ_cons, List.take_zero, List.mem_cons,
        List.mem_singleton, List.not_mem_nil, or_false] at hr
      rcases hr with rfl | rfl
      · exact ⟨_, rfl, by decide, by decide⟩
      · exact ⟨_, rfl, by decide, by decide⟩)⟩

/-- C4: when the first line with a marker contains `error` and not the ready marker, and
is read before the timer fires, `ExecuteCloudSQLProxy` panics in `log.Panicf`: it sends no
signal to the child and returns nothing to its caller, neither an error nor a process. -/
theorem error_marker_panics (w : World) (input : JSONSource) (pre : List String)
    (line : String) (rest : List ReadResult)
    (hstart : w.start = none)
    (hout : w.output = pre.map ReadResult.line ++ ReadResult.line line :: rest)
    (hpre : ∀ l ∈ pre, Contains l readyMarker = false ∧ Contains l errorMarker = false)
    (hready : Contains line readyMarker = false)
    (herror : Contains line errorMarker = true)
    (htimer : pre.length < w.deadline) :
    (ExecuteCloudSQLProxy w input).2 = ProxyResult.panic (Sprintf line) ∧
    signals (ExecuteCloudSQLProxy w input).1 = 0 ∧
    linesRead (ExecuteCloudSQLProxy w input).1 = pre ++ [line] := by
  obtain ⟨n, hn⟩ : ∃ n, w.deadline = pre.length + (n + 1) := ⟨w.deadline - pre.length - 1, by omega⟩
  have hloop : readinessLoop w.deadline w.output
      = (pre.map Event.read ++ [Event.read line, Event.logged (Sprintf line)],
          ProxyResult.panic (Sprintf line)) := by
    rw [hn, hout, readinessLoop_quiet pre hpre]
    simp [readinessLoop, ReadString, hready, herror]
  simp only [ExecuteCloudSQLProxy, hstart, hloop]
  refine ⟨trivial, ?_, ?_⟩
  · have h := signals_map_read pre
    simp only [signals] at h ⊢
    simp [List.count_cons, h]
  · simp [linesRead, linesRead_append, linesRead_map_read]

theorem error_marker_panics_witness :
    (sampleWorld "" [.line "starting\n", .line "error: no credentials\n"] 3 none).start = none ∧
    (ExecuteCloudSQLProxy
      (sampleWorld "" [.line "starting\n", .line "error: no credentials\n"] 3 none)
      (sampleInput "secret" "")).2 = ProxyResult.panic (Sprintf "error: no credentials\n") ∧
    signals (ExecuteCloudSQLProxy
      (sampleWorld "" [.line "starting\n", .line "error: no credentials\n"] 3 none)
      (sampleInput "secret" "")).1 = 0 ∧
    linesRead (ExecuteCloudSQLProxy
      (sampleWorld "" [.line "starting\n", .line "error: no credentials\n"] 3 none)
      (sampleInput "secret" "")).1 = ["starting\n"] ++ ["error: no credentials\n"] :=
  ⟨rfl, error_marker_panics
    (sampleWorld "" [.line "starting\n", .line "error: no credentials\n"] 3 none)
    (sampleInput "secret" "") ["starting\n"] "error: no credentials\n" [] rfl rfl
    (by decide) (by decide) (by decide) (by decide)⟩

/-! ## Claims on the statement loop of `main` -/

/-- C1, as the code has it: when the run reaches the statement loop and every execution
succeeds, the statements handed to the executor are exactly the fragments of the split on
`;` that are not empty after trimming, in order, each handed over as it stands in the
query text (not trimmed). -/
theorem executed_eq_nonBlank (w : World) (input : JSONSource)
    (hin : w.stdin = .ok input)
    (hproxy : (ExecuteCloudSQLProxy w input).2 = ProxyResult.process)
    (hprobe : (CheckDatabaseConnection w input).2 = none)
    (hall : allSucceed w.db [] (nonBlank (Split input.Parameters.Query ';')) = true) :
    executed (main w).1 = nonBlank (Split input.Parameters.Query ';') ∧
    (main w).2 = Exit.success := by
  have hrun := runStatements_all w.db [] (nonBlank (Split input.Parameters.Query ';'))
    (mem_nonBlank _)
  rw [← runStatements_nonBlank] at hrun
  have hnone := hrun.1.2 hall
  have hp0 := ExecuteCloudSQLProxy_silent w input
  have hc0 := CheckDatabaseConnection_silent w input
  rw [main_reached w input hin hproxy hprobe, hnone]
  simp [executed_append, hp0.1, hc0.1, hrun.2 hnone, executed]

theorem executed_eq_nonBlank_witness :
    (sampleWorld "A; B ;;  " [.line readyLine] 3 none).stdin
      = .ok (sampleInput "secret" "A; B ;;  ") ∧
    nonBlank (Split (sampleInput "secret" "A; B ;;  ").Parameters.Query ';') = ["A", " B "] ∧
    executed (main (sampleWorld "A; B ;;  " [.line readyLine] 3 none)).1
      = nonBlank (Split (sampleInput "secret" "A; B ;;  ").Parameters.Query ';') ∧
    (main (sampleWorld "A; B ;;  " [.line readyLine] 3 none)).2 = Exit.success :=
  ⟨rfl, by decide,
    executed_eq_nonBlank (sampleWorld "A; B ;;  " [.line readyLine] 3 none)
      (sampleInput "secret" "A; B ;;  ") rfl (by decide) (by decide) (by decide)⟩

/-- C1, as stated, fails: for the query text `A; B ;;  ` the run succeeds and the second
statement handed to the executor is ` B ` with its spaces, not the trimmed `B`. -/
theorem executed_not_trimmed :
    (main (sampleWorld "A; B ;;  " [.line readyLine] 3 none)).2 = Exit.success ∧
    trimmedNonEmpty (Split "A; B ;;  " ';') = ["A", "B"] ∧
    executed (main (sampleWorld "A; B ;;  " [.line readyLine] 3 none)).1 = ["A", " B "] ∧
    executed (main (sampleWorld "A; B ;;  " [.line readyLine] 3 none)).1
      ≠ trimmedNonEmpty (Split "A; B ;;  " ';') := by
  decide

/-- C10: `main` never hands to the executor a fragment that is empty or all white space;
the statements executed are always the first of the fragments that are not blank, in their
order; when the run reaches the statement loop and every execution succeeds they are all
of them, one for one and in order, so that their number is the number of such fragments;
and nothing is executed for the empty query. -/
theorem never_executes_blank (w : World) (input : JSONSource) (hin : w.stdin = .ok input) :
    (∀ s ∈ executed (main w).1, TrimSpace s ≠ "") ∧
    (∃ rest, executed (main w).1 ++ rest = nonBlank (Split input.Parameters.Query ';')) ∧
    ((ExecuteCloudSQLProxy w input).2 = ProxyResult.process →
      (CheckDatabaseConnection w input).2 = none →
      allSucceed w.db [] (nonBlank (Split input.Parameters.Query ';')) = true →
      executed (main w).1 = nonBlank (Split input.Parameters.Query ';') ∧
      (executed (main w).1).length
        = (Split input.Parameters.Query ';').countP (fun f => decide (TrimSpace f ≠ ""))) ∧
    ((main w).2 = Exit.success →
      executed (main w).1 = nonBlank (Split input.Parameters.Query ';') ∧
      (executed (main w).1).length
        = (Split input.Parameters.Query ';').countP (fun f => decide (TrimSpace f ≠ ""))) ∧
    (input.Parameters.Query = "" → executed (main w).1 = []) := by
  have hpre : ∃ rest, executed (main w).1 ++ rest = nonBlank (Split input.Parameters.Query ';') := by
    rcases main_executed w input hin with h | h
    · exact ⟨_, by rw [h]; rfl⟩
    · rw [h]; exact runStatements_prefix w.db [] _
  have hlen : executed (main w).1 = nonBlank (Split input.Parameters.Query ';') →
      (executed (main w).1).length
        = (Split input.Parameters.Query ';').countP (fun f => decide (TrimSpace f ≠ "")) := by
    intro h
    rw [h, nonBlank, List.countP_eq_length_filter]
  have hsucc : (main w).2 = Exit.success →
      executed (main w).1 = nonBlank (Split input.Parameters.Query ';') := by
    intro hok
    obtain ⟨-, -, hnone, htrace⟩ := main_success w input hin hok
    have hrun := runStatements_all w.db [] (nonBlank (Split input.Parameters.Query ';'))
      (mem_nonBlank _)
    rw [← runStatements_nonBlank] at hrun
    have hp0 := ExecuteCloudSQLProxy_silent w input
    have hc0 := CheckDatabaseConnection_silent w input
    rw [htrace]
    simp [executed_append, hp0.1, hc0.1, hrun.2 hnone, executed]
  refine ⟨?_, hpre, ?_, ?_, ?_⟩
  · intro s hs
    obtain ⟨rest, hrest⟩ := hpre
    exact mem_nonBlank _ s (by rw [← hrest]; exact List.mem_append_left _ hs)
  · intro hproxy hprobe hall
    have h := (main_of_allSucceed w input hin hproxy hprobe hall).1
    exact ⟨h, hlen h⟩
  · intro hok
    exact ⟨hsucc hok, hlen (hsucc hok)⟩
  · intro hq
    obtain ⟨rest, hrest⟩ := hpre
    have hempty : nonBlank (Split "" ';') = [] := by decide
    rw [hq, hempty] at hrest
    exact (List.append_eq_nil.mp hrest).1

theorem never_executes_blank_witness :
    (sampleWorld " ;SELECT 1; ;; SELECT 2" [.line readyLine] 3 none).stdin
      = .ok (sampleInput "secret" " ;SELECT 1; ;; SELECT 2") ∧
    nonBlank (Split (sampleInput "secret" " ;SELECT 1; ;; SELECT 2").Parameters.Query ';')
      = ["SELECT 1", " SELECT 2"] ∧
    (executed (main (sampleWorld " ;SELECT 1; ;; SELECT 2" [.line readyLine] 3 none)).1
      = nonBlank (Split (sampleInput "secret" " ;SELECT 1; ;; SELECT 2").Parameters.Query ';') ∧
    (executed (main (sampleWorld " ;SELECT 1; ;; SELECT 2" [.line readyLine] 3 none)).1).length
      = (Split (sampleInput "secret" " ;SELECT 1; ;; SELECT 2").Parameters.Query ';').countP
          (fun f => decide (TrimSpace f ≠ ""))) ∧
    (∀ s ∈ executed (main (sampleWorld " ;SELECT 1; ;BAD SYNTAX;; SELECT 2"
        [.line readyLine] 3 none)).1, TrimSpace s ≠ "") ∧
    executed (main (sampleWorld " ;SELECT 1; ;BAD SYNTAX;; SELECT 2"
        [.line readyLine] 3 none)).1 = ["SELECT 1", "BAD SYNTAX"] ∧
    executed (main (sampleWorld "" [.line readyLine] 3 none)).1 = [] :=
  ⟨rfl, by decide,
    (never_executes_blank (sampleWorld " ;SELECT 1; ;; SELECT 2" [.line readyLine] 3 none)
      (sampleInput "secret" " ;SELECT 1; ;; SELECT 2") rfl).2.2.1
      (by decide) (by decide) (by decide),
    (never_executes_blank
      (sampleWorld " ;SELECT 1; ;BAD SYNTAX;; SELECT 2" [.line readyLine] 3 none)
      (sampleInput "secret" " ;SELECT 1; ;BAD SYNTAX;; SELECT 2") rfl).1,
    by decide,
    (never_executes_blank (sampleWorld "" [.line readyLine] 3 none)
      (sampleInput "secret" "") rfl).2.2.2.2 rfl⟩

/-- C2: when the statements before the k-th non-blank one execute without error and the
k-th returns an error, `main` executes no statement after it, ends in `log.Fatal` with that
error (status 1) and prints no result document; and in every run the only document ever
printed is the fixed one, printed once, and only when every non-blank statement was
executed without error. -/
theorem first_error_aborts (w : World) (input : JSONSource) (hin : w.stdin = .ok input) :
    (∀ (done : List String) (stmt : String) (later : List String) (err : String),
      (ExecuteCloudSQLProxy w input).2 = ProxyResult.process →
      (CheckDatabaseConnection w input).2 = none →
      nonBlank (Split input.Parameters.Query ';') = done ++ stmt :: later →
      allSucceed w.db [] done = true →
      (QuerySQL w.db done stmt).2 = some err →
        executed (main w).1 = done ++ [stmt] ∧
        (main w).2 = Exit.fatal err ∧ (main w).2.status = 1 ∧
        documents (main w).1 = []) ∧
    (documents (main w).1 = [] ∨ documents (main w).1 = [output]) ∧
    (documents (main w).1 ≠ [] →
      (main w).2 = Exit.success ∧
      allSucceed w.db [] (nonBlank (Split input.Parameters.Query ';')) = true ∧
      executed (main w).1 = nonBlank (Split input.Parameters.Query ';')) := by
  have hp0 := ExecuteCloudSQLProxy_silent w input
  have hc0 := CheckDatabaseConnection_silent w input
  have hs0 := runStatements_silent w.db [] (Split input.Parameters.Query ';')
  have hdoc := main_documents w
  refine ⟨?_, ?_, ?_⟩
  · intro done stmt later err hproxy hprobe hsplit hdone herr
    have hnb : ∀ s ∈ done ++ stmt :: later, TrimSpace s ≠ "" := by
      rw [← hsplit]; exact mem_nonBlank _
    have hrun := runStatements_first_error w.db [] done stmt later err hnb hdone
      (by simpa using herr)
    rw [← hsplit, ← runStatements_nonBlank] at hrun
    have hmain := main_reached w input hin hproxy hprobe
    rw [hrun.1] at hmain
    simp only [] at hmain
    rw [hmain]
    simp [executed_append, documents_append, hp0.1, hp0.2, hc0.1, hc0.2.1, hs0.1, hrun.2,
      Exit.status]
  · by_cases hok : (main w).2 = Exit.success
    · right; simpa [hok] using hdoc
    · left; simpa [hok] using hdoc
  · intro hne
    have hok : (main w).2 = Exit.success := by
      by_contra hcon
      exact hne (by simpa [hcon] using hdoc)
    obtain ⟨-, -, hnone, htrace⟩ := main_success w input hin hok
    have hrun := runStatements_all w.db [] (nonBlank (Split input.Parameters.Query ';'))
      (mem_nonBlank _)
    rw [← runStatements_nonBlank] at hrun
    refine ⟨hok, hrun.1.1 hnone, ?_⟩
    rw [htrace]
    simp [executed_append, hp0.1, hc0.1, hrun.2 hnone, executed]

theorem first_error_aborts_witness :
    (sampleWorld "SELECT 1; BAD SYNTAX; SELECT 2;" [.line readyLine] 3 none).stdin
      = .ok (sampleInput "secret" "SELECT 1; BAD SYNTAX; SELECT 2;") ∧
    nonBlank (Split (sampleInput "secret" "SELECT 1; BAD SYNTAX; SELECT 2;").Parameters.Query ';')
      = ["SELECT 1"] ++ " BAD SYNTAX" :: [" SELECT 2"] ∧
    (executed (main (sampleWorld "SELECT 1; BAD SYNTAX; SELECT 2;" [.line readyLine] 3 none)).1
      = ["SELECT 1"] ++ [" BAD SYNTAX"] ∧
    (main (sampleWorld "SELECT 1; BAD SYNTAX; SELECT 2;" [.line readyLine] 3 none)).2
      = Exit.fatal "Error 1064: syntax error" ∧
    (main (sampleWorld "SELECT 1; BAD SYNTAX; SELECT 2;" [.line readyLine] 3 none)).2.status
      = 1 ∧
    documents (main (sampleWorld "SELECT 1; BAD SYNTAX; SELECT 2;" [.line readyLine] 3 none)).1
      = []) :=
  ⟨rfl, by decide,
    (first_error_aborts (sampleWorld "SELECT 1; BAD SYNTAX; SELECT 2;" [.line readyLine] 3 none)
      (sampleInput "secret" "SELECT 1; BAD SYNTAX; SELECT 2;") rfl).1
      ["SELECT 1"] " BAD SYNTAX" [" SELECT 2"] "Error 1064: syntax error"
      (by decide) (by decide) (by decide) (by decide) (by decide)⟩

/-! ## Claims on the termination signal and on the order of the stages -/

/-- C6: in the run in which the proxy reports that it is ready and `db.Ping()` then
fails, the child has been started and `main` ends in `log.Fatal` (status 1) without any
signal sent to it; the same holds in the run in which the probe succeeds and the second
statement fails. -/
theorem probe_failure_sends_no_signal :
    main (sampleWorld "SELECT 1;" [.line readyLine] 3 (some "connection refused"))
      = ([.started ["/opt/resource/cloud-sql-proxy", "proj:region:inst", "--unix-socket",
            "/cloudsql", "--json-credentials", "key"],
          .read readyLine,
          .opened "user:secret@unix(/cloudsql/proj:region:inst)/db", .pinged, .closed],
         Exit.fatal "connection refused") ∧
    signals (main (sampleWorld "SELECT 1;" [.line readyLine] 3 (some "connection refused"))).1
      = 0 ∧
    ¬ signals (main (sampleWorld "SELECT 1;" [.line readyLine] 3 (some "connection refused"))).1
      = 1 ∧
    main (sampleWorld "SELECT 1;BAD SYNTAX;" [.line readyLine] 3 none)
      = ([.started ["/opt/resource/cloud-sql-proxy", "proj:region:inst", "--unix-socket",
            "/cloudsql", "--json-credentials", "key"],
          .read readyLine,
          .opened "user:secret@unix(/cloudsql/proj:region:inst)/db", .pinged,
          .logged "SELECT 1", .query "SELECT 1", .loggedElapsed, .logged "1", .logged "1",
          .logged "BAD SYNTAX", .query "BAD SYNTAX"],
         Exit.fatal "Error 1064: syntax error") ∧
    signals (main (sampleWorld "SELECT 1;BAD SYNTAX;" [.line readyLine] 3 none)).1 = 0 := by
  decide

/-- In a run whose readiness loop ends at a line with the ready marker, a success ends with
the result document followed by the one signal of the run, and a run that ends in
`log.Fatal`, as it does when the probe or a statement fails, sends no signal. -/
theorem signals_after_ready (w : World) (input : JSONSource) (pre : List String)
    (line : String) (rest : List ReadResult)
    (hin : w.stdin = .ok input)
    (hstart : w.start = none)
    (hout : w.output = pre.map ReadResult.line ++ ReadResult.line line :: rest)
    (hpre : ∀ l ∈ pre, Contains l readyMarker = false ∧ Contains l errorMarker = false)
    (hready : Contains line readyMarker = true)
    (htimer : pre.length < w.deadline) :
    ((main w).2 = Exit.success →
      signals (main w).1 = 1 ∧
      ∃ before, (main w).1 = before ++ [Event.printed output, Event.signal] ∧
        signals before = 0) ∧
    ((main w).2 ≠ Exit.success → signals (main w).1 = 0 ∧ ∃ err, (main w).2 = Exit.fatal err) ∧
    ((CheckDatabaseConnection w input).2 ≠ none → signals (main w).1 = 0) ∧
    ((runStatements w.db [] (Split input.Parameters.Query ';')).2 ≠ none →
      signals (main w).1 = 0) := by
  obtain ⟨hproxy, hsig⟩ := ExecuteCloudSQLProxy_ready w input pre line rest hstart hout hpre
    hready htimer
  obtain ⟨hcount, hexit⟩ := main_signals w input hin hproxy
  rw [hsig] at hcount
  have hfail : (main w).2 ≠ Exit.success → signals (main w).1 = 0 := by
    intro hne; simpa [hne] using hcount
  refine ⟨fun hok => ⟨by simpa [hok] using hcount, ?_⟩, fun hne => ⟨hfail hne, ?_⟩, ?_, ?_⟩
  · obtain ⟨-, -, -, htrace⟩ := main_success w input hin hok
    refine ⟨_, htrace, ?_⟩
    have hc0 := CheckDatabaseConnection_silent w input
    have hs0 := runStatements_silent w.db [] (Split input.Parameters.Query ';')
    simp [signals_append, hsig, hc0.2.2, hs0.2]
  · rcases hexit with h | h
    · exact absurd h hne
    · exact h
  · intro hc
    apply hfail
    intro hok
    exact hc (main_success w input hin hok).2.1
  · intro hs
    apply hfail
    intro hok
    exact hs (main_success w input hin hok).2.2.1

/-- C7: in the run in which the proxy prints one line without the ready marker and the
timer then fires, while the probe and the statement succeed, `main` executes the statement
and ends with status 0, having signalled the child twice: once before the probe
and once after the result document. -/
theorem timeout_run_executes_statement :
    main (sampleWorld "SELECT 1;" [.line "starting\n"] 1 none)
      = ([.started ["/opt/resource/cloud-sql-proxy", "proj:region:inst", "--unix-socket",
            "/cloudsql", "--json-credentials", "key"],
          .read "starting\n",
          .logged "Command output:", .copied [],
          .logged "Timed out waiting for the Cloud SQL Proxy to start", .signal,
          .opened "user:secret@unix(/cloudsql/proj:region:inst)/db", .pinged,
          .logged "SELECT 1", .query "SELECT 1", .loggedElapsed, .logged "1", .logged "1",
          .printed output, .signal],
         Exit.success) ∧
    (∀ l ∈ linesRead (main (sampleWorld "SELECT 1;" [.line "starting\n"] 1 none)).1,
      Contains l readyMarker = false) ∧
    executed (main (sampleWorld "SELECT 1;" [.line "starting\n"] 1 none)).1 = ["SELECT 1"] ∧
    (main (sampleWorld "SELECT 1;" [.line "starting\n"] 1 none)).2.status = 0 ∧
    signals (main (sampleWorld "SELECT 1;" [.line "starting\n"] 1 none)).1 = 2 := by
  decide

/-- A statement is executed only in a run whose proxy stage returned the process with a
nil error and whose probe succeeded. -/
theorem executes_only_after_probe (w : World) (input : JSONSource) (hin : w.stdin = .ok input)
    (hex : executed (main w).1 ≠ []) :
    (ExecuteCloudSQLProxy w input).2 = ProxyResult.process ∧
    (CheckDatabaseConnection w input).2 = none := by
  have hp0 := ExecuteCloudSQLProxy_silent w input
  have hc0 := CheckDatabaseConnection_silent w input
  simp only [main, hin] at hex
  obtain hp | ⟨err, hp⟩ | ⟨msg, hp⟩ := proxyResult_cases (ExecuteCloudSQLProxy w input).2
  · obtain hc | ⟨err, hc⟩ := Option.eq_none_or_eq_some (CheckDatabaseConnection w input).2
    · exact ⟨hp, hc⟩
    · simp [hp, hc, executed_append, hp0.1, hc0.1] at hex
  · simp [hp, hp0.1] at hex
  · simp [hp, hp0.1] at hex

/-! ## Claims on the cell renderer and on the connection string -/

/-- C8: the cell renderer is a total function: a null value gives `<nil>`, a byte payload
gives its content (`abc` for the bytes of `abc`), and every other value gives its default
string form: an integer its decimal text (`42` for 42), a boolean `true` or `false`, a
string itself; rendering a rendered cell again, as a string or as a byte payload, gives
the same string; and `QuerySQL` logs every row it scans as its cells so rendered and joined
by ` | `, and returns no error whatever the values are. -/
theorem renderCell_total_idempotent :
    renderCell Value.null = "<nil>" ∧
    renderCell (Value.bytes "abc") = "abc" ∧
    renderCell (Value.int64 42) = "42" ∧
    (∀ content, renderCell (Value.bytes content) = content) ∧
    (∀ n : Int, renderCell (Value.int64 n) = toString n) ∧
    renderCell (Value.int64 (-7)) = "-7" ∧ renderCell (Value.int64 0) = "0" ∧
    renderCell (Value.bool true) = "true" ∧ renderCell (Value.bool false) = "false" ∧
    (∀ s, renderCell (Value.string s) = s) ∧
    (∀ text, renderCell (Value.other text) = text) ∧
    (∀ v, renderCell (Value.string (renderCell v)) = renderCell v) ∧
    (∀ v, renderCell (Value.bytes (renderCell v)) = renderCell v) ∧
    (∀ (columns : List String) (rows : List (List Value)) (history : List String)
        (stmt : String),
      QuerySQL { query := fun _ _ => .ok { columns := .ok columns, scans := rows.map .ok } }
          history stmt
        = ([Event.logged stmt, Event.query stmt, Event.loggedElapsed,
              Event.logged (" | ".intercalate columns)]
            ++ rows.map (fun r => Event.logged (" | ".intercalate (r.map renderCell))),
           none)) ∧
    QuerySQL
        { query := fun _ _ =>
            .ok { columns := Except.ok (["a", "b", "c"]),
                  scans := [Except.ok ([Value.null, Value.bytes "abc", Value.int64 42])] } }
        [] "SELECT a, b, c"
      = ([Event.logged "SELECT a, b, c", Event.query "SELECT a, b, c", Event.loggedElapsed,
          Event.logged "a | b | c", Event.logged "<nil> | abc | 42"], none) := by
  refine ⟨rfl, rfl, by decide, fun _ => rfl, fun _ => rfl, by decide, by decide, by decide,
    by decide, fun _ => rfl, fun _ => rfl, fun _ => rfl, fun _ => rfl, ?_, by decide⟩
  intro columns rows history stmt
  simp [QuerySQL, logRows_ok]

/-- Without a `%` in the format, `doPrintf` copies the format. -/
theorem doPrintf_of_no_percent (format : List Char) (h : '%' ∉ format) :
    doPrintf 0 format = format := by
  induction format with
  | nil => rfl
  | cons c rest ih =>
    have hc : c ≠ '%' := fun hc => h (by simp [hc])
    have hrest : '%' ∉ rest := fun hr => h (List.mem_cons_of_mem _ hr)
    simp [doPrintf, hc, ih hrest]

/-- For a password without `%`, the connection string carries the password unchanged. -/
theorem connString_of_no_percent (input : JSONSource) (h : '%' ∉ input.Source.Password.data) :
    connString input = input.Source.UserName ++ ":" ++ input.Source.Password
      ++ "@unix(/cloudsql/" ++ input.Source.HostName ++ ")/" ++ input.Source.Database := by
  simp [connString, Sprintf, doPrintf_of_no_percent _ h]

/-- C9: for the password `p%d` the connection string built by `CheckDatabaseConnection` is
`user:p%!d(MISSING)@unix(/cloudsql/proj:region:inst)/db`; for `100%` and `a%%b` the
password comes out as `100%!(NOVERB)` and `a%b`: a password with a `%` is not unchanged. -/
theorem connString_percent_password :
    connString (sampleInput "p%d" "")
      = "user:p%!d(MISSING)@unix(/cloudsql/proj:region:inst)/db" ∧
    connString (sampleInput "p%d" "")
      ≠ "user" ++ ":" ++ "p%d" ++ "@unix(/cloudsql/" ++ "proj:region:inst" ++ ")/" ++ "db" ∧
    connString (sampleInput "100%" "")
      = "user:100%!(NOVERB)@unix(/cloudsql/proj:region:inst)/db" ∧
    connString (sampleInput "a%%b" "") = "user:a%b@unix(/cloudsql/proj:region:inst)/db" := by
  decide

end CloudSQL
